import Mathlib

/-!
Verification of the ADF4350 frequency-synthesizer driver
(`src/drivers/ADF4350/ADF4350.c`) against its natural-language
specification.

The C code is shallowly embedded: machine integers become `Nat` with
explicit reductions `% 2^w` wherever the C computation can wrap
(`uint8_t`, `uint16_t`, `uint32_t`, `uint64_t`); C functions that can
fail to return a value (division or modulo by zero, which is undefined
behaviour, or loops that never exit) are embedded with fuel and return
`Option`, where `none` means the C call does not return normally.
Register arrays `uint32_t regs[6]` become `List Nat`; the serial bus is
a parameter `spi : Nat → Int` giving the result of the k-th transfer,
and the embedding additionally logs each attempted write as a pair
(register index, transmitted word) so that properties about issued bus
writes can be stated.

Constants such as `ADF4350_MAX_OUT_FREQ` and the register bit-packing
macros live in the header `ADF4350.h`, which is not part of the sources
here; they are therefore taken as parameters (`AdfConsts`, `PackFns`)
and the theorems quantify over them.
-/

namespace ADF4350

/-- Element access in a `List Nat` with default 0, mirroring C array
indexing `a[i]` for the fixed-size register arrays. -/
def nthD : List Nat → Nat → Nat
  | [], _ => 0
  | a :: _, 0 => a
  | _ :: l, n + 1 => nthD l n

/-- Result of one run of the register sync engine: the C return value,
the updated shadow array `regs_hw`, and the log of attempted bus writes
as (register index, transmitted word) pairs, in issue order. -/
structure SyncResult where
  ret : Int
  hw : List Nat
  writes : List (Nat × Nat)
deriving DecidableEq

/-- Prepend an attempted write to a sync result, keeping return value
and shadow. -/
def push_write (p : Nat × Nat) (r : SyncResult) : SyncResult :=
  ⟨r.ret, r.hw, p :: r.writes⟩

/-- Loop body of `adf4350_sync_config` (ADF4350.c lines 101-120): the
argument `n` counts the remaining iterations, so the current register
index is `n - 1`; the C loop runs `i` from `ADF4350_REG5` (5) down to
`ADF4350_REG0` (0).  `db` is the `doublebuf` flag (set by the switch on
`ADF4350_REG1`/`ADF4350_REG4` before the write is issued), `wc` counts
the bus transfers issued so far (used to index `spi`); the transmitted
word is `st->regs[i] | i`. -/
def sync_loop (spi : Nat → Int) (regs : List Nat) :
    Nat → List Nat → Bool → Nat → SyncResult
  | 0, hw, _, _ => ⟨0, hw, []⟩
  | n + 1, hw, db, wc =>
    if nthD hw n ≠ nthD regs n ∨ (n = 0 ∧ db = true) then
      if spi wc < 0 then ⟨spi wc, hw, [(n, nthD regs n ||| n)]⟩
      else
        push_write (n, nthD regs n ||| n)
          (sync_loop spi regs n (hw.set n (nthD regs n))
            (if n = 1 ∨ n = 4 then true else db) (wc + 1))
    else
      sync_loop spi regs n hw db wc

/-- Embedding of `adf4350_sync_config` (ADF4350.c lines 97-123). -/
def adf4350_sync_config (spi : Nat → Int) (regs hw : List Nat) : SyncResult :=
  sync_loop spi regs 6 hw false 0

/-- The phase-detector frequency computed by `adf4350_tune_r_cnt`
(ADF4350.c lines 141-142) for counter value `r`:
`(st->clkin * mult) / (r * div2)` with `mult` and `div2` the doubler and
divide-by-2 factors; `clkin` is a `uint32_t`, so the doubled reference
wraps modulo 2^32. -/
def pfd_val (clkin mult div2 r : Nat) : Nat :=
  clkin * mult % 2 ^ 32 / (r * div2)

/-- Loop of `adf4350_tune_r_cnt` (ADF4350.c lines 138-143).  `r_cnt` is
a `uint16_t`, so the increment wraps modulo 2^16.  If the wrapped
counter reaches 0 the C code divides by zero (undefined behaviour),
embedded as `none`. -/
def tune_loop (clkin mult div2 maxPfd : Nat) : Nat → Nat → Option (Nat × Nat)
  | 0, _ => none
  | fuel + 1, r =>
    if (r + 1) % 65536 * div2 = 0 then none
    else if pfd_val clkin mult div2 ((r + 1) % 65536) ≤ maxPfd then
      some ((r + 1) % 65536, pfd_val clkin mult div2 ((r + 1) % 65536))
    else tune_loop clkin mult div2 maxPfd fuel ((r + 1) % 65536)

/-- Embedding of `adf4350_tune_r_cnt` (ADF4350.c lines 134-146); returns
the new counter together with the phase-detector frequency stored into
`st->fpfd`.  The counter state lives in `Fin`-like range [0, 65536), so
65536 iterations of fuel are exhaustive: if the loop has not returned
within 65536 steps its state has cycled and it never returns. -/
def adf4350_tune_r_cnt (clkin : Nat) (doubler div2 : Bool) (maxPfd r : Nat) :
    Option (Nat × Nat) :=
  tune_loop clkin (if doubler then 2 else 1) (if div2 then 2 else 1)
    maxPfd 65536 (r % 65536)

/-- Loop of `gcd` (ADF4350.c lines 160-163): linear decrement search for
the first `tmp` dividing both arguments.  At `tmp = 0` the C code
evaluates `x % 0`, which is undefined behaviour, embedded as `none`. -/
def gcd_loop (x y : Nat) : Nat → Option Nat
  | 0 => none
  | t + 1 =>
    if x % (t + 1) = 0 ∧ y % (t + 1) = 0 then some (t + 1)
    else gcd_loop x y t

/-- Embedding of `gcd` (ADF4350.c lines 153-166): `tmp = y > x ? x : y`
followed by the decrement loop. -/
def gcd (x y : Nat) : Option Nat :=
  gcd_loop x y (if x < y then x else y)

/-- The fraction-reduction step of `adf4350_set_freq` (ADF4350.c lines
247-256): if both `r0_fract` and `r1_mod` are nonzero divide them by
their gcd, otherwise force the pair to (0, 1). -/
def reduce (fract mod : Nat) : Option (Nat × Nat) :=
  if fract ≠ 0 ∧ mod ≠ 0 then
    match gcd mod fract with
    | none => none
    | some g => some (fract / g, mod / g)
  else some (0, 1)

/-- The divide-ratio rounding of `adf4350_set_freq` (ADF4350.c lines
233-235): `tmp = n + (st->fpfd > 1); tmp = tmp / st->fpfd;` where the
comparison `st->fpfd > 1` contributes 1 or 0 and `tmp` is a
`uint64_t`. -/
def div_round_closest_adf (n d : Nat) : Nat :=
  (n + (if 1 < d then 1 else 0)) % 2 ^ 64 / d

/-- Modelled from the spec: round-half-up of `n / d`, the rounding mode
the spec (§4.3 step 5e) and the source comment `Div round closest
(n + d/2)/d` claim for the divide-ratio computation. -/
def round_half_up (n d : Nat) : Nat :=
  (n + d / 2) / d

/-- The band-select clock divider computation of `adf4350_set_freq`
(ADF4350.c lines 243-245), with `maxB` standing for
`ADF4350_MAX_BANDSEL_CLK`; the result is stored in a `uint8_t`, hence
the reduction modulo 256. -/
def band_sel_div_calc (maxB fpfd : Nat) : Nat :=
  (if maxB / 2 < fpfd % maxB then fpfd / maxB + 1 else fpfd / maxB) % 256

/-- The achieved-frequency computation of `adf4350_set_freq` (ADF4350.c
lines 300-303).  `st->r0_int * st->r1_mod + st->r0_fract` is evaluated
in `uint32_t` arithmetic before the cast to `uint64_t`, hence the inner
reduction modulo 2^32; the remaining products are `uint64_t`. -/
def achieved_freq (r0_int r1_mod r0_fract fpfd sel : Nat) : Nat :=
  (r0_int * r1_mod + r0_fract) % 2 ^ 32 * fpfd % 2 ^ 64
    / (r1_mod * 2 ^ sel % 2 ^ 64)

/-- Modelled from the spec (§4.3 step 10): the achieved frequency
`((integer_division × modulus + fractional_numerator) × pfd_hz) /
(modulus × 2^rf_divider_log2)` computed over unbounded integers. -/
def achieved_freq_exact (r0_int r1_mod r0_fract fpfd sel : Nat) : Nat :=
  (r0_int * r1_mod + r0_fract) * fpfd / (r1_mod * 2 ^ sel)

/-- Reinterpretation of a `uint64_t` value as the C `int64_t` return
value of `adf4350_set_freq`. -/
def toInt64 (n : Nat) : Int :=
  if n % 2 ^ 64 < 2 ^ 63 then (n % 2 ^ 64 : Nat) else (n % 2 ^ 64 : Nat) - 2 ^ 64

/-- The numeric limits of the device, defined in the header `ADF4350.h`
(not among the sources); the embedding is parametric in them. -/
structure AdfConsts where
  maxOutFreq : Nat
  minOutFreq : Nat
  maxFreq45Presc : Nat
  minVcoFreq : Nat
  maxFreqPfd : Nat
  maxRCnt : Nat
  maxModulus : Nat
  maxBandselClk : Nat
  reg1Prescaler : Nat
deriving DecidableEq

/-- The fields of `struct adf4350_platform_data` read by the planner. -/
structure PlatformData where
  refDoublerEn : Bool
  refDiv2En : Bool
  refDivFactor : Nat
deriving DecidableEq

/-- The register bit-packing macros `ADF4350_REG0_INT`, ... of the
header `ADF4350.h` (not among the sources); the embedding is parametric
in them, keeping only the data flow of ADF4350.c lines 258-292: which
computed quantities feed which register.  `pack2` receives the final
reference counter, `pack4` the RF-divider selection and the band-select
divider; the user-settings overlays of registers 2-4 are folded into the
respective functions. -/
structure PackFns where
  pack0 : Nat → Nat → Nat
  pack1 : Nat → Nat → Nat
  pack2 : Nat → Nat
  pack3 : Nat
  pack4 : Nat → Nat → Nat
  pack5 : Nat

/-- The fields of `struct adf4350_state` used by `adf4350_set_freq`
(`pdata` is passed separately, the scratch field `val` is omitted). -/
structure AdfState where
  clkin : Nat
  chspc : Nat
  fpfd : Nat
  r0_fract : Nat
  r0_int : Nat
  r1_mod : Nat
  r4_rf_div_sel : Nat
  regs : List Nat
  regs_hw : List Nat
deriving DecidableEq

/-- The VCO-range loop of `adf4350_set_freq` (ADF4350.c lines 200-204):
double the working frequency (a `uint64_t`) and count the doublings
until it reaches the minimum VCO frequency. -/
def vco_loop (minVco : Nat) : Nat → Nat → Nat → Option (Nat × Nat)
  | 0, freq, sel => if freq < minVco then none else some (freq, sel)
  | fuel + 1, freq, sel =>
    if freq < minVco then vco_loop minVco fuel (freq * 2 % 2 ^ 64) (sel + 1)
    else some (freq, sel)

/-- The innermost do-while of `adf4350_set_freq` (ADF4350.c lines
219-229): tune the reference counter, compute the modulus
`st->r1_mod = st->fpfd / chspc`, fall back to a wider channel spacing
when the counter overruns `ADF4350_MAX_R_CNT` (resetting the counter),
and repeat while the modulus overruns `ADF4350_MAX_MODULUS` with a
nonzero counter.  Returns (counter, fpfd, modulus, spacing).  `chspc` is
a `uint32_t`, hence the wrap on its increment; `chspc = 0` makes the
modulus computation divide by zero, embedded as `none`. -/
def plan_inner (c : AdfConsts) (pd : PlatformData) (clkin : Nat) :
    Nat → Nat → Nat → Option (Nat × Nat × Nat × Nat)
  | 0, _, _ => none
  | fuel + 1, r, ch =>
    match adf4350_tune_r_cnt clkin pd.refDoublerEn pd.refDiv2En c.maxFreqPfd r with
    | none => none
    | some (r', pfd) =>
      if ch = 0 then none
      else
        let m := pfd / ch
        let rc := if c.maxRCnt < r' then (0, (ch + 1) % 2 ^ 32) else (r', ch)
        if c.maxModulus < m ∧ rc.1 ≠ 0 then plan_inner c pd clkin fuel rc.1 rc.2
        else some (rc.1, pfd, m, rc.2)

/-- The middle do-while of `adf4350_set_freq` (ADF4350.c lines 217-230):
repeat the inner search while the reference counter is zero (the
channel-spacing fallback resets it). -/
def plan_mid (c : AdfConsts) (pd : PlatformData) (clkin : Nat) :
    Nat → Nat → Nat → Option (Nat × Nat × Nat × Nat)
  | 0, _, _ => none
  | fuel + 1, r, ch =>
    match plan_inner c pd clkin (fuel + 1) r ch with
    | none => none
    | some (r', pfd, m, ch') =>
      if r' = 0 then plan_mid c pd clkin fuel r' ch'
      else some (r', pfd, m, ch')

/-- The outer do-while of `adf4350_set_freq` (ADF4350.c lines 215-241):
run the counter/spacing search, derive the rounded divide ratio and
split it into fractional and integer parts, and repeat while the
integer part is below the minimum feedback divider `mdiv`.  Returns
(counter, fpfd, modulus, spacing, r0_fract, r0_int).  `st->r0_int` is a
`uint32_t`, hence the truncation of the quotient; `fpfd = 0` or
`modulus = 0` make the C code divide by zero, embedded as `none`. -/
def plan_outer (c : AdfConsts) (pd : PlatformData) (clkin : Nat) :
    Nat → Nat → Nat → Nat → Nat → Option (Nat × Nat × Nat × Nat × Nat × Nat)
  | 0, _, _, _, _ => none
  | fuel + 1, freq, mdiv, r, ch =>
    match plan_mid c pd clkin (fuel + 1) r ch with
    | none => none
    | some (r', pfd, m, ch') =>
      if pfd = 0 then none
      else
        let t2 := div_round_closest_adf (freq * m % 2 ^ 64) pfd
        if m = 0 then none
        else
          let fract := t2 % m
          let int0 := t2 / m % 2 ^ 32
          if int0 < mdiv then plan_outer c pd clkin fuel freq mdiv r' ch'
          else some (r', pfd, m, ch', fract, int0)

/-- Embedding of `adf4350_set_freq` (ADF4350.c lines 176-304).  Returns
`none` when the C call does not return normally (undefined behaviour or
a loop that does not exit within the fuel), otherwise the `int64_t`
return value, the updated state, and the log of attempted bus writes.
Note that the local channel spacing of the search is never stored back
into `st->chspc`, and that on a transport failure the partially updated
shadow registers are kept (no rollback). -/
def set_freq (c : AdfConsts) (pk : PackFns) (pd : PlatformData)
    (spi : Nat → Int) (st : AdfState) (freq : Nat) (fuel : Nat) :
    Option (Int × AdfState × List (Nat × Nat)) :=
  if c.maxOutFreq < freq ∨ freq < c.minOutFreq then some (-1, st, [])
  else
    let mdiv : Nat := if c.maxFreq45Presc < freq then 75 else 23
    let prescaler : Nat := if c.maxFreq45Presc < freq then c.reg1Prescaler else 0
    match vco_loop c.minVcoFreq fuel freq 0 with
    | none => none
    | some (freq', sel) =>
      let r0 : Nat := if pd.refDivFactor ≠ 0 then (pd.refDivFactor - 1) % 65536 else 0
      match plan_outer c pd st.clkin fuel freq' mdiv r0 st.chspc with
      | none => none
      | some (rCnt, fpfd, _m, _ch, fract, int0) =>
        let bandSel := band_sel_div_calc c.maxBandselClk fpfd
        match reduce fract _m with
        | none => none
        | some fm =>
          let regs' := (((((st.regs.set 0 (pk.pack0 int0 fm.1)).set 1
            (pk.pack1 fm.2 prescaler)).set 2 (pk.pack2 rCnt)).set 3
            pk.pack3).set 4 (pk.pack4 sel bandSel)).set 5 pk.pack5
          let res := adf4350_sync_config spi regs' st.regs_hw
          let st' : AdfState :=
            { clkin := st.clkin, chspc := st.chspc, fpfd := fpfd,
              r0_fract := fm.1, r0_int := int0, r1_mod := fm.2,
              r4_rf_div_sel := sel, regs := regs', regs_hw := res.hw }
          if res.ret < 0 then some (res.ret, st', res.writes)
          else some (toInt64 (achieved_freq int0 fm.2 fm.1 fpfd sel), st', res.writes)

/-! Helper lemmas about list access and the sync loop. -/

theorem nthD_set_ne : ∀ (l : List Nat) (i j v : Nat), i ≠ j →
    nthD (l.set i v) j = nthD l j := by
  intro l
  induction l with
  | nil => intro i j v _; rfl
  | cons a t ih =>
    intro i j v h
    cases i with
    | zero =>
      cases j with
      | zero => exact absurd rfl h
      | succ j => rfl
    | succ i =>
      cases j with
      | zero => rfl
      | succ j => exact ih i j v (fun hh => h (by rw [hh]))

theorem nthD_set_self : ∀ (l : List Nat) (i v : Nat), i < l.length →
    nthD (l.set i v) i = v := by
  intro l
  induction l with
  | nil => intro i v h; exact absurd h (by simp)
  | cons a t ih =>
    intro i v h
    cases i with
    | zero => rfl
    | succ i => exact ih i v (Nat.lt_of_succ_lt_succ h)

/-- Once the double-buffer flag is set, a successful pass over the
remaining registers always issues the register-0 write. -/
theorem sync_loop_mem_of_db (spi : Nat → Int) (regs : List Nat)
    (hspi : ∀ k, 0 ≤ spi k) :
    ∀ n hw wc, 0 < n →
      (0, nthD regs 0 ||| 0) ∈ (sync_loop spi regs n hw true wc).writes := by
  intro n
  induction n with
  | zero => intro hw wc h; exact absurd h (Nat.lt_irrefl 0)
  | succ n ih =>
    intro hw wc _
    by_cases hn : n = 0
    · subst hn
      simp only [sync_loop]
      split
      · split
        · exact List.mem_singleton.mpr rfl
        · exact List.mem_cons_self _ _
      · rename_i h; simp at h
    · simp only [sync_loop]
      by_cases hc : nthD hw n ≠ nthD regs n ∨ (n = 0 ∧ True)
      · rw [if_pos hc, if_neg (not_lt.mpr (hspi wc)), ite_self]
        exact List.mem_cons_of_mem _ (ih _ _ (Nat.pos_of_ne_zero hn))
      · rw [if_neg hc]
        exact ih _ _ (Nat.pos_of_ne_zero hn)

/-- If some register with index 1 or 4 below the current position
differs from its shadow, a successful pass issues the register-0
write. -/
theorem sync_loop_mem_of_diff (spi : Nat → Int) (regs : List Nat)
    (hspi : ∀ k, 0 ≤ spi k) :
    ∀ n hw db wc j, j < n → (j = 1 ∨ j = 4) → nthD regs j ≠ nthD hw j →
      (0, nthD regs 0 ||| 0) ∈ (sync_loop spi regs n hw db wc).writes := by
  intro n
  induction n with
  | zero => intro hw db wc j hj _ _; exact absurd hj (Nat.not_lt_zero j)
  | succ n ih =>
    intro hw db wc j hj hj14 hne
    simp only [sync_loop]
    by_cases hjn : j = n
    · subst hjn
      rw [if_pos (Or.inl (Ne.symm hne)), if_neg (not_lt.mpr (hspi wc)),
        if_pos hj14]
      apply List.mem_cons_of_mem
      exact sync_loop_mem_of_db spi regs hspi _ _ _
        (by rcases hj14 with h | h <;> omega)
    · have hjlt : j < n := by omega
      by_cases hc : nthD hw n ≠ nthD regs n ∨ (n = 0 ∧ db = true)
      · rw [if_pos hc, if_neg (not_lt.mpr (hspi wc))]
        apply List.mem_cons_of_mem
        apply ih _ _ _ j hjlt hj14
        rw [nthD_set_ne hw n j _ (fun h => hjn h.symm)]
        exact hne
      · rw [if_neg hc]
        exact ih _ _ _ j hjlt hj14 hne

theorem sync_loop_hw_length (spi : Nat → Int) (regs : List Nat) :
    ∀ n hw db wc, (sync_loop spi regs n hw db wc).hw.length = hw.length := by
  intro n
  induction n with
  | zero => intro hw db wc; rfl
  | succ n ih =>
    intro hw db wc
    simp only [sync_loop]
    split
    · split
      · rfl
      · simp only [push_write]
        rw [ih]
        exact List.length_set hw n _
    · exact ih hw db wc

theorem sync_loop_nthD_ge (spi : Nat → Int) (regs : List Nat) :
    ∀ n hw db wc j, n ≤ j →
      nthD (sync_loop spi regs n hw db wc).hw j = nthD hw j := by
  intro n
  induction n with
  | zero => intro hw db wc j _; rfl
  | succ n ih =>
    intro hw db wc j hj
    simp only [sync_loop]
    split
    · split
      · rfl
      · simp only [push_write]
        rw [ih _ _ _ j (by omega), nthD_set_ne hw n j _ (by omega)]
    · exact ih hw db wc j (by omega)

/-- After a pass in which every bus transfer succeeds, the shadow of
every register the pass visited equals its target value. -/
theorem sync_loop_nthD_lt (spi : Nat → Int) (regs : List Nat)
    (hspi : ∀ k, 0 ≤ spi k) :
    ∀ n hw db wc j, j < n → n ≤ hw.length →
      nthD (sync_loop spi regs n hw db wc).hw j = nthD regs j := by
  intro n
  induction n with
  | zero => intro hw db wc j hj _; exact absurd hj (Nat.not_lt_zero j)
  | succ n ih =>
    intro hw db wc j hj hlen
    simp only [sync_loop]
    by_cases hc : nthD hw n ≠ nthD regs n ∨ (n = 0 ∧ db = true)
    · rw [if_pos hc, if_neg (not_lt.mpr (hspi wc))]
      simp only [push_write]
      by_cases hjn : j = n
      · subst hjn
        rw [sync_loop_nthD_ge spi regs j _ _ _ j (Nat.le_refl j)]
        exact nthD_set_self hw j _ (by omega)
      · exact ih _ _ _ j (by omega) (by rw [List.length_set]; omega)
    · rw [if_neg hc]
      by_cases hjn : j = n
      · subst hjn
        rw [sync_loop_nthD_ge spi regs j hw db wc j (Nat.le_refl j)]
        rcases not_or.mp hc with ⟨h1, _⟩
        exact (not_not.mp h1).symm ▸ rfl
      · exact ih hw db wc j (by omega) (by omega)

/-- A pass over registers whose shadow already equals the target, with
the double-buffer flag clear, issues no transfer and changes nothing. -/
theorem sync_loop_noop (spi : Nat → Int) (regs : List Nat) :
    ∀ n hw wc, (∀ j, j < n → nthD hw j = nthD regs j) →
      sync_loop spi regs n hw false wc = ⟨0, hw, []⟩ := by
  intro n
  induction n with
  | zero => intro hw wc _; rfl
  | succ n ih =>
    intro hw wc h
    simp only [sync_loop]
    rw [if_neg]
    · exact ih hw wc (fun j hj => h j (by omega))
    · intro hc
      rcases hc with hc | hc
      · exact hc (h n (by omega))
      · exact Bool.false_ne_true hc.2

/-- C1: for every target/shadow register pair in which register 1 or
register 4 differs from its shadow value, a successful run of the
register sync engine (`adf4350_sync_config`, every bus transfer
succeeding) issues a bus write for register 0, with no assumption on
whether target register 0 equals its shadow value. -/
theorem c1_sync_writes_reg0_on_reg1_or_reg4_change
    (spi : Nat → Int) (regs hw : List Nat)
    (hspi : ∀ k, 0 ≤ spi k)
    (hdiff : nthD regs 1 ≠ nthD hw 1 ∨ nthD regs 4 ≠ nthD hw 4) :
    (0, nthD regs 0 ||| 0) ∈ (adf4350_sync_config spi regs hw).writes := by
  unfold adf4350_sync_config
  rcases hdiff with h | h
  · exact sync_loop_mem_of_diff spi regs hspi 6 hw false 0 1 (by omega)
      (Or.inl rfl) h
  · exact sync_loop_mem_of_diff spi regs hspi 6 hw false 0 4 (by omega)
      (Or.inr rfl) h

/-- Witness for C1: only register 4 differs from its shadow (register 0
is unchanged), yet the register-0 write (word 8 = regs[0] | 0) is
issued. -/
theorem c1_witness :
    ((0 : Nat), (8 : Nat)) ∈ (adf4350_sync_config (fun _ => 0)
      [8, 16, 24, 32, 40, 48] [8, 16, 24, 32, 99, 48]).writes :=
  c1_sync_writes_reg0_on_reg1_or_reg4_change (fun _ => 0)
    [8, 16, 24, 32, 40, 48] [8, 16, 24, 32, 99, 48]
    (fun _ => le_refl 0) (Or.inr (by decide))

/-- C9: after one successful run of the register sync engine, a second
run with the same target registers issues zero bus transfers, whatever
the bus then does. -/
theorem c9_sync_idempotent (spi spi2 : Nat → Int) (regs hw : List Nat)
    (hspi : ∀ k, 0 ≤ spi k) (hlen : hw.length = 6) :
    (adf4350_sync_config spi2 regs
      (adf4350_sync_config spi regs hw).hw).writes = [] := by
  unfold adf4350_sync_config
  rw [sync_loop_noop spi2 regs 6 _ 0]
  intro j hj
  exact sync_loop_nthD_lt spi regs hspi 6 hw false 0 j hj (by omega)

/-- Witness for C9: a concrete successful sync followed by a second sync
on an unreliable bus still issues no transfer. -/
theorem c9_witness :
    (adf4350_sync_config (fun _ => -5) [1, 2, 3, 4, 5, 6]
      (adf4350_sync_config (fun _ => 0) [1, 2, 3, 4, 5, 6]
        [0, 0, 0, 0, 0, 0]).hw).writes = [] :=
  c9_sync_idempotent (fun _ => 0) (fun _ => -5) [1, 2, 3, 4, 5, 6]
    [0, 0, 0, 0, 0, 0] (fun _ => le_refl 0) rfl

/-! Lemmas about the linear-decrement gcd. -/

/-- The decrement loop of the C `gcd`, started at or above the true gcd
of two positive numbers, stops exactly at the true gcd: every common
divisor is at most `Nat.gcd x y`, so the first `tmp` on the way down
that divides both is `Nat.gcd x y` itself. -/
theorem gcd_loop_eq (x y : Nat) (hx : 0 < x) (hy : 0 < y) :
    ∀ t, Nat.gcd x y ≤ t → gcd_loop x y t = some (Nat.gcd x y) := by
  intro t
  induction t with
  | zero =>
    intro h
    have h0 : Nat.gcd x y = 0 := Nat.le_zero.mp h
    rw [Nat.gcd_eq_zero_iff] at h0
    omega
  | succ t ih =>
    intro h
    simp only [gcd_loop]
    by_cases hc : x % (t + 1) = 0 ∧ y % (t + 1) = 0
    · rw [if_pos hc]
      have hdvd : (t + 1) ∣ Nat.gcd x y :=
        Nat.dvd_gcd (Nat.dvd_of_mod_eq_zero hc.1) (Nat.dvd_of_mod_eq_zero hc.2)
      have hg0 : 0 < Nat.gcd x y := Nat.gcd_pos_of_pos_left y hx
      have hle : t + 1 ≤ Nat.gcd x y := Nat.le_of_dvd hg0 hdvd
      rw [Nat.le_antisymm h hle]
    · rw [if_neg hc]
      apply ih
      rcases Nat.lt_or_ge (Nat.gcd x y) (t + 1) with hlt | hge
      · omega
      · exfalso
        apply hc
        have heq : Nat.gcd x y = t + 1 := Nat.le_antisymm h hge
        constructor
        · exact Nat.mod_eq_zero_of_dvd (heq ▸ Nat.gcd_dvd_left x y)
        · exact Nat.mod_eq_zero_of_dvd (heq ▸ Nat.gcd_dvd_right x y)

/-- For positive arguments the C `gcd` returns the true greatest common
divisor: the loop starts at `min x y`, which is at least `Nat.gcd x y`
because the gcd divides both positive arguments. -/
theorem gcd_eq (x y : Nat) (hx : 0 < x) (hy : 0 < y) :
    gcd x y = some (Nat.gcd x y) := by
  unfold gcd
  apply gcd_loop_eq x y hx hy
  by_cases h : x < y
  · rw [if_pos h]; exact Nat.le_of_dvd hx (Nat.gcd_dvd_left x y)
  · rw [if_neg h]; exact Nat.le_of_dvd hy (Nat.gcd_dvd_right x y)

/-- The fraction-reduction step keeps the numerator strictly below the
denominator and the denominator positive. -/
theorem reduce_spec (f m : Nat) (hm : 0 < m) (hf : f < m) :
    ∀ p, reduce f m = some p → p.1 < p.2 ∧ 1 ≤ p.2 := by
  intro p h
  by_cases hf0 : f = 0
  · subst hf0
    simp only [reduce, ne_eq, not_true_eq_false, false_and, if_false,
      Option.some.injEq] at h
    rw [← h]
    exact ⟨Nat.zero_lt_one, Nat.le_refl 1⟩
  · have hm0 : m ≠ 0 := by omega
    unfold reduce at h
    rw [if_pos ⟨hf0, hm0⟩, gcd_eq m f hm (Nat.pos_of_ne_zero hf0)] at h
    simp only [Option.some.injEq] at h
    rw [← h]
    have hg0 : 0 < Nat.gcd m f := Nat.gcd_pos_of_pos_left f hm
    refine ⟨Nat.div_lt_div_of_lt_of_dvd (Nat.gcd_dvd_left m f) hf, ?_⟩
    exact Nat.div_pos (Nat.le_of_dvd hm (Nat.gcd_dvd_left m f)) hg0

/-- C5: the rational reducer of the planner returns, for positive
numerator and denominator, a coprime pair with the same ratio; the
linear-search `gcd` agrees with the true greatest common divisor on all
positive pairs; and a zero numerator reduces to (0, 1) whatever the
denominator. -/
theorem c5_rational_reducer :
    (∀ a b : Nat, 0 < a → 0 < b → ∃ x y : Nat, reduce a b = some (x, y) ∧
      Nat.Coprime x y ∧ x * b = a * y) ∧
    (∀ x y : Nat, 0 < x → 0 < y → gcd x y = some (Nat.gcd x y)) ∧
    (∀ b : Nat, reduce 0 b = some (0, 1)) := by
  refine ⟨?_, gcd_eq, ?_⟩
  · intro a b ha hb
    have ha0 : a ≠ 0 := by omega
    have hb0 : b ≠ 0 := by omega
    refine ⟨a / Nat.gcd b a, b / Nat.gcd b a, ?_, ?_, ?_⟩
    · unfold reduce
      rw [if_pos ⟨ha0, hb0⟩, gcd_eq b a hb ha]
    · rw [Nat.gcd_comm b a]
      exact Nat.coprime_div_gcd_div_gcd (Nat.gcd_pos_of_pos_left b ha)
    · have hg : 0 < Nat.gcd b a := Nat.gcd_pos_of_pos_left a hb
      set g := Nat.gcd b a with hgdef
      obtain ⟨a1, ha1⟩ : g ∣ a := Nat.gcd_dvd_right b a
      obtain ⟨b1, hb1⟩ : g ∣ b := Nat.gcd_dvd_left b a
      rw [ha1, hb1, Nat.mul_div_cancel_left a1 hg, Nat.mul_div_cancel_left b1 hg]
      ring
  · intro b
    unfold reduce
    rw [if_neg (by omega)]

/-- Witness for C5 at the pair (4, 6): the reducer yields a coprime pair
with ratio 4/6. -/
theorem c5_witness : ∃ x y : Nat, reduce 4 6 = some (x, y) ∧
    Nat.Coprime x y ∧ x * 6 = 4 * y :=
  c5_rational_reducer.1 4 6 (by decide) (by decide)

/-- C10: the C `gcd` has no result (it evaluates `x % 0`, undefined
behaviour) whenever either argument is zero, but its only call site, the
reduction step of the planner, invokes it only under the guard
`st->r0_fract && st->r1_mod`, where it always returns a value. -/
theorem c10_gcd_zero_guarded :
    (∀ y : Nat, gcd 0 y = none) ∧ (∀ x : Nat, gcd x 0 = none) ∧
    (∀ fract m : Nat, fract ≠ 0 → m ≠ 0 →
      ∃ g : Nat, gcd m fract = some g ∧
        reduce fract m = some (fract / g, m / g)) := by
  refine ⟨?_, ?_, ?_⟩
  · intro y
    unfold gcd
    by_cases h : (0 : Nat) < y
    · rw [if_pos h]; rfl
    · rw [if_neg h]
      have hy : y = 0 := by omega
      rw [hy]; rfl
  · intro x
    unfold gcd
    rw [if_neg (Nat.not_lt_zero x)]; rfl
  · intro fract m hf hm
    refine ⟨Nat.gcd m fract,
      gcd_eq m fract (Nat.pos_of_ne_zero hm) (Nat.pos_of_ne_zero hf), ?_⟩
    unfold reduce
    rw [if_pos ⟨hf, hm⟩,
      gcd_eq m fract (Nat.pos_of_ne_zero hm) (Nat.pos_of_ne_zero hf)]

/-- Witness for C10: both zero-argument shapes have no result, and the
guarded call site succeeds on the concrete pair (2, 33). -/
theorem c10_witness : gcd 0 7 = none ∧ gcd 7 0 = none ∧
    ∃ g : Nat, gcd 33 2 = some g ∧ reduce 2 33 = some (2 / g, 33 / g) :=
  ⟨c10_gcd_zero_guarded.1 7, c10_gcd_zero_guarded.2.1 7,
    c10_gcd_zero_guarded.2.2 2 33 (by decide) (by decide)⟩

/-- The tune loop, run with enough fuel from a counter strictly below
the least satisfying counter, returns that least counter and its
phase-detector frequency. -/
theorem tune_loop_least (clkin mult div2 maxPfd : Nat) (hdiv : 0 < div2) :
    ∀ fuel r j, r < j → j < 65536 →
      pfd_val clkin mult div2 j ≤ maxPfd →
      (∀ k, r < k → k < j → ¬ pfd_val clkin mult div2 k ≤ maxPfd) →
      j - r ≤ fuel →
      tune_loop clkin mult div2 maxPfd fuel r =
        some (j, pfd_val clkin mult div2 j) := by
  intro fuel
  induction fuel with
  | zero => intro r j h1 _ _ _ h5; omega
  | succ fuel ih =>
    intro r j h1 h2 h3 h4 h5
    simp only [tune_loop]
    have hr1 : (r + 1) % 65536 = r + 1 := Nat.mod_eq_of_lt (by omega)
    rw [hr1, if_neg (Nat.mul_ne_zero (Nat.succ_ne_zero r) (by omega))]
    by_cases he : r + 1 = j
    · rw [he, if_pos h3]
    · have hlt : r + 1 < j := by omega
      rw [if_neg (h4 (r + 1) (by omega) hlt)]
      exact ih (r + 1) j hlt h2 h3 (fun k hk1 hk2 => h4 k (by omega) hk2)
        (by omega)

/-- C7 counterexample: at starting counter 65535 (a legal `uint16_t`
value) with positive reference input, the incremented counter wraps to
0 and the C code divides by zero, so `adf4350_tune_r_cnt` returns no
counter at all — although a satisfying counter (65536) exists
mathematically. -/
theorem c7_counterexample :
    adf4350_tune_r_cnt 1 false false 1 65535 = none ∧
    pfd_val 1 1 1 65536 ≤ 1 := by
  exact ⟨rfl, by decide⟩

/-- C7 (amended): for every starting counter and reference input, as
long as some counter in the `uint16_t` range (start, 65535] brings the
phase-detector frequency within the bound, `adf4350_tune_r_cnt`
terminates and returns the smallest such counter together with its
phase-detector frequency. -/
theorem c7_tune_r_cnt_least (clkin : Nat) (doubler div2 : Bool)
    (maxPfd start j : Nat)
    (hclk : 0 < clkin) (hstart : start < 65536) (hj1 : start < j)
    (hj2 : j < 65536)
    (hok : pfd_val clkin (if doubler then 2 else 1)
      (if div2 then 2 else 1) j ≤ maxPfd)
    (hleast : ∀ k, start < k → k < j →
      ¬ pfd_val clkin (if doubler then 2 else 1)
        (if div2 then 2 else 1) k ≤ maxPfd) :
    adf4350_tune_r_cnt clkin doubler div2 maxPfd start =
      some (j, pfd_val clkin (if doubler then 2 else 1)
        (if div2 then 2 else 1) j) := by
  unfold adf4350_tune_r_cnt
  rw [Nat.mod_eq_of_lt hstart]
  exact tune_loop_least clkin _ _ maxPfd (by split <;> omega) 65536 start j
    hj1 hj2 hok hleast (by omega)

/-- Witness for C7: reference 100 Hz, bound 30 Hz, start 0; counters
1, 2, 3 give 100, 50, 33 Hz, all above the bound, and the search stops
at counter 4 with 25 Hz. -/
theorem c7_witness :
    adf4350_tune_r_cnt 100 false false 30 0 = some (4, 25) :=
  c7_tune_r_cnt_least 100 false false 30 0 4 (by decide) (by decide)
    (by decide) (by decide) (by decide)
    (by intro k h1 h2; interval_cases k <;> decide)

/-- C2 counterexample: at the exact tie (remainder equal to half of the
band-select limit, here 62500 of 125000) the code's strict comparison
fails, so the computed divider is the truncated quotient 0, not the
rounded-up value 1 the claim asserts. -/
theorem c2_counterexample :
    band_sel_div_calc 125000 62500 = 0 ∧
    62500 % 125000 = 125000 / 2 ∧
    62500 / 125000 + 1 = 1 := by
  exact ⟨rfl, rfl, rfl⟩

/-- With remainder `r < B`, adding `(B - 1) / 2` to it and dividing by
`B` yields 1 exactly when `r` strictly exceeds `B / 2` — the rounding
the strict comparison of the band-select computation implements. -/
theorem round_ties_down_aux (B r : Nat) (hB : 0 < B) (hr : r < B) :
    (if B / 2 < r then 1 else 0) = (r + (B - 1) / 2) / B := by
  by_cases h : B / 2 < r
  · rw [if_pos h]
    have h1 : r + (B - 1) / 2 = B * 1 + (r + (B - 1) / 2 - B) := by omega
    rw [h1, Nat.mul_add_div hB, Nat.div_eq_of_lt (by omega)]
  · rw [if_neg h]
    exact (Nat.div_eq_of_lt (by omega)).symm

/-- C2 (amended): the band-select clock divider equals
`pfd / maxB` rounded to nearest with ties rounded DOWN — equivalently
`(pfd + (maxB - 1) / 2) / maxB` — truncated to the 8-bit register
field. -/
theorem c2_band_select_rounds_ties_down (maxB fpfd : Nat) (hB : 0 < maxB) :
    band_sel_div_calc maxB fpfd = (fpfd + (maxB - 1) / 2) / maxB % 256 := by
  have hrlt : fpfd % maxB < maxB := Nat.mod_lt fpfd hB
  have h0 : fpfd + (maxB - 1) / 2 =
      maxB * (fpfd / maxB) + (fpfd % maxB + (maxB - 1) / 2) := by
    rw [← Nat.add_assoc, Nat.div_add_mod fpfd maxB]
  have haux := round_ties_down_aux maxB (fpfd % maxB) hB hrlt
  unfold band_sel_div_calc
  rw [h0, Nat.mul_add_div hB, ← haux]
  by_cases h : maxB / 2 < fpfd % maxB
  · rw [if_pos h, if_pos h]
  · rw [if_neg h, if_neg h, Nat.add_zero]

/-- Witness for C2 (amended) at maxB = 125000, fpfd = 187501: remainder
62501 exceeds half, so the divider is 2, matching the ties-down rounding
formula. -/
theorem c2_witness :
    band_sel_div_calc 125000 187501 = (187501 + (125000 - 1) / 2) / 125000 % 256 :=
  c2_band_select_rounds_ties_down 125000 187501 (by decide)

/-- C3: evaluation of the divide-ratio rounding at a failing input.  The
code adds `(st->fpfd > 1)`, i.e. the constant 1, before truncating,
which is NOT round-half-up: at numerator 2200016000000 (= 2200016000 Hz
times modulus 1000) and pfd 32000000 the remainder is exactly half the
divisor, the code truncates to 68750 while round-half-up — the behaviour
the source comment `Div round closest (n + d/2)/d` documents — gives
68751. -/
theorem c3_round_adjustment_diverges :
    div_round_closest_adf 2200016000000 32000000 = 68750 ∧
    round_half_up 2200016000000 32000000 = 68751 ∧
    2200016000000 % 32000000 = 32000000 / 2 := by
  exact ⟨rfl, rfl, rfl⟩

/-! Lemmas about the planner loops. -/

/-- Whenever the outer planning loop returns, the modulus it found is
positive and the fractional numerator, a remainder modulo the modulus,
is strictly below it. -/
theorem plan_outer_spec (c : AdfConsts) (pd : PlatformData) (clkin : Nat) :
    ∀ fuel freq mdiv r ch q pfd m ch2 fract int0,
      plan_outer c pd clkin fuel freq mdiv r ch =
        some (q, pfd, m, ch2, fract, int0) →
      0 < m ∧ fract < m := by
  intro fuel
  induction fuel with
  | zero =>
    intro freq mdiv r ch q pfd m ch2 fract int0 h
    exact absurd h (by simp [plan_outer])
  | succ fuel ih =>
    intro freq mdiv r ch q pfd m ch2 fract int0 h
    simp only [plan_outer] at h
    split at h
    · exact absurd h (by simp)
    · split at h
      · exact absurd h (by simp)
      · split at h
        · exact absurd h (by simp)
        · split at h
          · exact ih freq mdiv _ _ q pfd m ch2 fract int0 h
          · simp only [Option.some.injEq, Prod.mk.injEq] at h
            obtain ⟨-, -, h3, -, h5, -⟩ := h
            rename_i hm0 _
            subst h3
            subst h5
            exact ⟨Nat.pos_of_ne_zero hm0, Nat.mod_lt _ (Nat.pos_of_ne_zero hm0)⟩

/-- A call of `set_freq` that returns a non-negative value went through
the whole planner: the final state carries the reduced fraction, which
is in range, and the return value is the achieved-frequency computation
over the final state. -/
theorem set_freq_success (c : AdfConsts) (pk : PackFns) (pd : PlatformData)
    (spi : Nat → Int) (st : AdfState) (freq fuel : Nat) (ret : Int)
    (st' : AdfState) (w : List (Nat × Nat))
    (h : set_freq c pk pd spi st freq fuel = some (ret, st', w))
    (hret : 0 ≤ ret) :
    st'.r0_fract < st'.r1_mod ∧ 1 ≤ st'.r1_mod ∧
      ret = toInt64 (achieved_freq st'.r0_int st'.r1_mod st'.r0_fract
        st'.fpfd st'.r4_rf_div_sel) := by
  simp only [set_freq] at h
  generalize (if c.maxFreq45Presc < freq then (75 : Nat) else 23) = mdv at h
  generalize (if c.maxFreq45Presc < freq then c.reg1Prescaler else 0) = prsc at h
  generalize (if pd.refDivFactor ≠ 0 then (pd.refDivFactor - 1) % 65536
    else 0) = r0 at h
  split at h
  · simp only [Option.some.injEq, Prod.mk.injEq] at h
    obtain ⟨h1, -, -⟩ := h
    rw [← h1] at hret
    exact absurd hret (by norm_num)
  · split at h
    · exact absurd h (by simp)
    · split at h
      · exact absurd h (by simp)
      · rename_i hout
        split at h
        · exact absurd h (by simp)
        · rename_i fm hred
          obtain ⟨hm, hf⟩ := plan_outer_spec c pd st.clkin fuel _ _ _ _
            _ _ _ _ _ _ hout
          obtain ⟨hlt, hone⟩ := reduce_spec _ _ hm hf fm hred
          split at h
          · simp only [Option.some.injEq, Prod.mk.injEq] at h
            obtain ⟨h1, -, -⟩ := h
            rename_i hneg
            rw [← h1] at hret
            exact absurd (lt_of_le_of_lt hret hneg) (lt_irrefl 0)
          · simp only [Option.some.injEq, Prod.mk.injEq] at h
            obtain ⟨h1, h2, -⟩ := h
            rw [← h2]
            exact ⟨hlt, hone, h1.symm⟩

/-- C6: after every frequency-planning call that returns a non-negative
value, the state left behind satisfies the post-reduction invariant
`1 ≤ r1_mod` and `r0_fract < r1_mod`. -/
theorem c6_post_reduction_invariant (c : AdfConsts) (pk : PackFns)
    (pd : PlatformData) (spi : Nat → Int) (st : AdfState) (freq fuel : Nat)
    (ret : Int) (st' : AdfState) (w : List (Nat × Nat))
    (h : set_freq c pk pd spi st freq fuel = some (ret, st', w))
    (hret : 0 ≤ ret) :
    1 ≤ st'.r1_mod ∧ st'.r0_fract < st'.r1_mod :=
  have s := set_freq_success c pk pd spi st freq fuel ret st' w h hret
  ⟨s.2.1, s.1⟩

/-- Witness for C6: a concrete successful planning run (reference 100
Hz, spacing 10 Hz, request 500 Hz, toy limits) ends with modulus 1 and
fractional numerator 0, satisfying the invariant. -/
theorem c6_witness :
    1 ≤ (AdfState.mk 100 10 20 0 25 1 0 [0, 0, 0, 0, 0, 0]
        [0, 0, 0, 0, 0, 0]).r1_mod ∧
    (AdfState.mk 100 10 20 0 25 1 0 [0, 0, 0, 0, 0, 0]
        [0, 0, 0, 0, 0, 0]).r0_fract <
      (AdfState.mk 100 10 20 0 25 1 0 [0, 0, 0, 0, 0, 0]
        [0, 0, 0, 0, 0, 0]).r1_mod :=
  c6_post_reduction_invariant ⟨1000, 1, 10000, 0, 100, 1023, 4095, 7, 0⟩
    ⟨fun _ _ => 0, fun _ _ => 0, fun _ => 0, 0, fun _ _ => 0, 0⟩
    ⟨false, false, 0⟩ (fun _ => 0)
    ⟨100, 10, 0, 0, 0, 0, 0, [0, 0, 0, 0, 0, 0], [9, 9, 9, 9, 9, 9]⟩ 500 9
    500 (AdfState.mk 100 10 20 0 25 1 0 [0, 0, 0, 0, 0, 0] [0, 0, 0, 0, 0, 0])
    [(5, 5), (4, 4), (3, 3), (2, 2), (1, 1), (0, 0)] (by decide) (by decide)

/-- C8: a requested frequency above the maximum or below the minimum
output frequency makes `set_freq` return the domain error -1 with the
state unchanged and no bus write attempted. -/
theorem c8_out_of_range_rejected (c : AdfConsts) (pk : PackFns)
    (pd : PlatformData) (spi : Nat → Int) (st : AdfState) (freq fuel : Nat)
    (h : c.maxOutFreq < freq ∨ freq < c.minOutFreq) :
    set_freq c pk pd spi st freq fuel = some (-1, st, []) := by
  simp only [set_freq]
  rw [if_pos h]

/-- Witness for C8: requesting 1001 Hz with a 1000 Hz maximum returns -1
and the exact starting state with an empty write log. -/
theorem c8_witness :
    set_freq ⟨1000, 1, 10000, 0, 100, 1023, 4095, 7, 0⟩
      ⟨fun _ _ => 0, fun _ _ => 0, fun _ => 0, 0, fun _ _ => 0, 0⟩
      ⟨false, false, 0⟩ (fun _ => 0)
      ⟨100, 10, 0, 0, 0, 0, 0, [0, 0, 0, 0, 0, 0], [9, 9, 9, 9, 9, 9]⟩ 1001 0 =
      some (-1, ⟨100, 10, 0, 0, 0, 0, 0, [0, 0, 0, 0, 0, 0],
        [9, 9, 9, 9, 9, 9]⟩, []) :=
  c8_out_of_range_rejected ⟨1000, 1, 10000, 0, 100, 1023, 4095, 7, 0⟩
    ⟨fun _ _ => 0, fun _ _ => 0, fun _ => 0, 0, fun _ _ => 0, 0⟩
    ⟨false, false, 0⟩ (fun _ => 0)
    ⟨100, 10, 0, 0, 0, 0, 0, [0, 0, 0, 0, 0, 0], [9, 9, 9, 9, 9, 9]⟩ 1001 0
    (Or.inl (by decide))

/-- C4 counterexample: a successful planning run (toy limits chosen so
that `r0_int * r1_mod` exceeds 2^32) returns 6984947593, while the
claimed unbounded-integer formula gives 20000000006: the C code
multiplies `st->r0_int * st->r1_mod` in 32-bit arithmetic before
widening, so the product wraps. -/
theorem c4_counterexample :
    set_freq ⟨100000000000, 1, 1000000000000, 0, 100, 1023, 4095, 7, 0⟩
      ⟨fun _ _ => 0, fun _ _ => 0, fun _ => 0, 0, fun _ _ => 0, 0⟩
      ⟨false, false, 0⟩ (fun _ => 0)
      ⟨100, 3, 0, 0, 0, 0, 0, [0, 0, 0, 0, 0, 0], [9, 9, 9, 9, 9, 9]⟩
      20000000007 9 =
      some (6984947593,
        ⟨100, 3, 100, 2, 200000000, 33, 0, [0, 0, 0, 0, 0, 0],
          [0, 0, 0, 0, 0, 0]⟩,
        [(5, 5), (4, 4), (3, 3), (2, 2), (1, 1), (0, 0)]) ∧
    achieved_freq_exact 200000000 33 2 100 0 = 20000000006 ∧
    (6984947593 : Int) ≠ 20000000006 ∧
    2 ^ 32 < 200000000 * 33 := by
  exact ⟨by decide, rfl, by decide, by decide⟩

/-- C4 (amended): whenever the computation does not overflow —
`r0_int * r1_mod + r0_fract` fits in 32 bits, its product with the
phase-detector frequency fits in 63 bits, and the divisor fits in 64
bits — the value returned by a successful `set_freq` equals the
achieved-frequency formula over unbounded integers. -/
theorem c4_achieved_freq_exact (c : AdfConsts) (pk : PackFns)
    (pd : PlatformData) (spi : Nat → Int) (st : AdfState) (freq fuel : Nat)
    (ret : Int) (st' : AdfState) (w : List (Nat × Nat))
    (h : set_freq c pk pd spi st freq fuel = some (ret, st', w))
    (hret : 0 ≤ ret)
    (h1 : st'.r0_int * st'.r1_mod + st'.r0_fract < 2 ^ 32)
    (h2 : (st'.r0_int * st'.r1_mod + st'.r0_fract) * st'.fpfd < 2 ^ 63)
    (h3 : st'.r1_mod * 2 ^ st'.r4_rf_div_sel < 2 ^ 64) :
    ret = (achieved_freq_exact st'.r0_int st'.r1_mod st'.r0_fract st'.fpfd
      st'.r4_rf_div_sel : Nat) := by
  obtain ⟨-, -, hr⟩ :=
    set_freq_success c pk pd spi st freq fuel ret st' w h hret
  rw [hr]
  unfold achieved_freq achieved_freq_exact toInt64
  rw [Nat.mod_eq_of_lt h1, Nat.mod_eq_of_lt (lt_trans h2 (by norm_num)),
    Nat.mod_eq_of_lt h3]
  have hv : (st'.r0_int * st'.r1_mod + st'.r0_fract) * st'.fpfd /
      (st'.r1_mod * 2 ^ st'.r4_rf_div_sel) < 2 ^ 63 :=
    lt_of_le_of_lt (Nat.div_le_self _ _) h2
  rw [Nat.mod_eq_of_lt (lt_trans hv (by norm_num)), if_pos hv]

/-- Witness for C4 (amended): on the concrete overflow-free run, the
returned 500 equals the unbounded formula (25 × 1 + 0) × 20 / 1. -/
theorem c4_witness :
    (500 : Int) = ((achieved_freq_exact 25 1 0 20 0 : Nat) : Int) :=
  c4_achieved_freq_exact ⟨1000, 1, 10000, 0, 100, 1023, 4095, 7, 0⟩
    ⟨fun _ _ => 0, fun _ _ => 0, fun _ => 0, 0, fun _ _ => 0, 0⟩
    ⟨false, false, 0⟩ (fun _ => 0)
    ⟨100, 10, 0, 0, 0, 0, 0, [0, 0, 0, 0, 0, 0], [9, 9, 9, 9, 9, 9]⟩ 500 9
    500 (AdfState.mk 100 10 20 0 25 1 0 [0, 0, 0, 0, 0, 0] [0, 0, 0, 0, 0, 0])
    [(5, 5), (4, 4), (3, 3), (2, 2), (1, 1), (0, 0)] (by decide) (by decide)
    (by decide) (by decide) (by decide)

end ADF4350
